import Mathlib

/-!
Verification development for the mutual-fund NAV tracker
(`src/nav-tracker.js`: `getNAVAndAnalyze`, `isWeekendOrHoliday`, `fillNAData`).

Modelling conventions:
* JavaScript numbers are modelled as rationals (`ℚ`); a `parseFloat` result
  that is `NaN` is modelled as `none : Option ℚ`, a finite result as `some q`.
* The spreadsheet is modelled as a list of rows; each row stores the date
  (an integer day number) and the per-fund NAV cells (`Option ℚ`, where
  `none` stands for the string cell value "N/A").
* Dates are integer day numbers; `getDay` is the day number modulo 7, with
  the convention that residue 0 is Sunday and residue 6 is Saturday,
  matching `date.getDay()` up to choice of epoch.
* The AMFI provider is external: a fetch yields a response whose
  semicolon-separated fields are given pre-parsed as `Option ℚ`
  (the `parseFloat` of each field).
-/

namespace NavTracker

/-- Model of JavaScript `toFixed`: rounding half away from zero at a given
scale.  `toFixed(k)` followed by `parseFloat` becomes `roundAway (x * 10^k) / 10^k`. -/
def roundAway (x : ℚ) : ℤ :=
  if 0 ≤ x then ⌊x + 1 / 2⌋ else -⌊-x + 1 / 2⌋

/-- `(·).toFixed(2)` then `parseFloat`, from the dip computation (line 346). -/
def round2 (x : ℚ) : ℚ := (roundAway (x * 100) : ℚ) / 100

/-- `(·).toFixed(4)` then `parseFloat`, from the MA computation (line 317). -/
def round4 (x : ℚ) : ℚ := (roundAway (x * 10000) : ℚ) / 10000

/-- Moving-average engine, translated from `getNAVAndAnalyze` lines 311-319:
`ma = "N/A"; if (dataRange.length >= period) { const navsForMA =
dataRange.slice(-period).map(parseFloat).filter(v => !isNaN(v));
if (navsForMA.length === period) ma = (sum / period).toFixed(4); }`.
`col` is the fund's NAV column in chronological order, ending at the as-of
row; `none` cells are the stored "N/A" markers (whose `parseFloat` is `NaN`). -/
def computeMA (p : ℕ) (col : List (Option ℚ)) : Option ℚ :=
  if p ≤ col.length then
    let navsForMA := (col.drop (col.length - p)).filterMap id
    if navsForMA.length = p then some (round4 (navsForMA.sum / (p : ℚ))) else none
  else none

/-- The valid (non-"N/A") entries of the trailing window of up to `p` rows. -/
def windowVals (p : ℕ) (col : List (Option ℚ)) : List ℚ :=
  (col.drop (col.length - p)).filterMap id

/-- Number of valid numeric entries in the trailing window. -/
def windowValidCount (p : ℕ) (col : List (Option ℚ)) : ℕ :=
  (windowVals p col).length

/-- Sum of the valid numeric entries in the trailing window. -/
def windowSum (p : ℕ) (col : List (Option ℚ)) : ℚ :=
  (windowVals p col).sum

theorem windowValidCount_le (p : ℕ) (col : List (Option ℚ)) :
    windowValidCount p col ≤ min p col.length := by
  unfold windowValidCount windowVals
  refine le_min ?_ ?_
  · calc ((col.drop (col.length - p)).filterMap id).length
        ≤ (col.drop (col.length - p)).length := List.length_filterMap_le _ _
      _ = col.length - (col.length - p) := by rw [List.length_drop]
      _ ≤ p := by omega
  · calc ((col.drop (col.length - p)).filterMap id).length
        ≤ (col.drop (col.length - p)).length := List.length_filterMap_le _ _
      _ ≤ col.length := by rw [List.length_drop]; omega

/-- **C1.** For every period P in {30, 50, 200} and stored series, the
moving-average computation returns a numeric value (the arithmetic mean of
the trailing window's P valid values, rounded to 4 decimal places) if and
only if the trailing window of rows ending at the as-of date contains
exactly P valid numeric entries; with exactly P−1 valid entries (or fewer
rows than P) it returns Unavailable. -/
theorem c1_moving_average (p : ℕ) (col : List (Option ℚ))
    (hp : p = 30 ∨ p = 50 ∨ p = 200) :
    ((computeMA p col).isSome ↔ windowValidCount p col = p)
    ∧ (windowValidCount p col = p - 1 → computeMA p col = none)
    ∧ (windowValidCount p col = p →
        computeMA p col = some (round4 (windowSum p col / (p : ℚ)))) := by
  have hple : 1 ≤ p := by rcases hp with h | h | h <;> omega
  have hcount := windowValidCount_le p col
  by_cases hlen : p ≤ col.length
  · refine ⟨?_, ?_, ?_⟩
    · simp only [computeMA, if_pos hlen]
      by_cases hc : ((col.drop (col.length - p)).filterMap id).length = p
      · simp [hc, windowValidCount, windowVals]
      · simp [hc, windowValidCount, windowVals]
    · intro hc
      have hne : windowValidCount p col ≠ p := by omega
      simp only [computeMA, if_pos hlen]
      rw [if_neg]
      intro h
      exact hne h
    · intro hc
      simp only [windowValidCount, windowVals] at hc
      simp only [computeMA, if_pos hlen]
      rw [if_pos hc]
      rfl
  · have hlt : windowValidCount p col < p := by
      have : min p col.length = col.length := by omega
      omega
    refine ⟨?_, ?_, ?_⟩
    · simp only [computeMA, if_neg hlen]
      constructor
      · intro h; simp at h
      · intro h; omega
    · intro _; simp [computeMA, hlen]
    · intro h; omega

/-- Witness for C1: a 30-row series of valid entries has exactly 30 valid
values in its trailing window, and the 30-day MA is numeric (the rounded
mean). -/
theorem c1_witness :
    windowValidCount 30 (List.replicate 30 (some (1 : ℚ))) = 30
    ∧ computeMA 30 (List.replicate 30 (some (1 : ℚ)))
        = some (round4 (windowSum 30 (List.replicate 30 (some (1 : ℚ))) / (30 : ℚ))) :=
  ⟨by decide, (c1_moving_average 30 (List.replicate 30 (some (1 : ℚ)))
      (Or.inl rfl)).2.2 (by decide)⟩

/-! ### Signal and scoring engine (`getNAVAndAnalyze` lines 334-405) -/

/-- Alert tags; the textual alert messages of the source are abstracted to
their kind.  Source lines 373-403. -/
inductive Alert
  | exceptional
  | strong
  | moderate
  | goldenCross
  | deathCross
  | longTermDown
deriving DecidableEq

/-- One step of the dip-tracking loop of lines 344-352: for an available MA,
`diff = ((latestNav - ma) / ma * 100).toFixed(2)`, `diffValue = |parseFloat diff|`,
and the running maximum is bumped when `latestNav < ma && diffValue > acc`. -/
def dipStep (latestNav : ℚ) (acc : ℚ) (ma : Option ℚ) : ℚ :=
  match ma with
  | none => acc
  | some m =>
    let diffValue := |round2 ((latestNav - m) / m * 100)|
    if latestNav < m ∧ diffValue > acc then diffValue else acc

/-- `maxDipPercentage` after the `maPeriods.forEach` loop (lines 340-352). -/
def maxDipPct (latestNav : ℚ) (ma30 ma50 ma200 : Option ℚ) : ℚ :=
  [ma30, ma50, ma200].foldl (dipStep latestNav) 0

/-- `maAlignmentScore` (lines 355-357): the count of available MAs with
`latestNav > ma`. -/
def maAlignmentScore (latestNav : ℚ) (ma30 ma50 ma200 : Option ℚ) : ℚ :=
  (([ma30, ma50, ma200].countP fun ma =>
    match ma with
    | some m => decide (latestNav > m)
    | none => false) : ℕ)

/-- `trendScore` (lines 362-363): 0 unless MA30 and MA50 are both available,
otherwise `min(|MA30 - MA50| / MA50 * 100 / 5, 1)`. -/
def trendScore (ma30 ma50 : Option ℚ) : ℚ :=
  match ma30, ma50 with
  | some a, some b => min (|(a - b) / b * 100| / 5) 1
  | _, _ => 0

/-- The opportunity-score formula of lines 366-370, with the
`MARKET_WEIGHTS` constants 0.4 / 0.3 / 0.3 inlined:
`((maxDip/10)*0.4 + trend*0.3 + (align/3)*0.3) * 100`. -/
def opportunityScore (maxDip trend align : ℚ) : ℚ :=
  ((maxDip / 10) * (4 / 10) + trend * (3 / 10) + (align / 3) * (3 / 10)) * 100

/-- Dip-tier alert selection (lines 373-388): strict `>` against the
`SEVERITY` thresholds 7 / 5 / 3, strongest first, first match wins. -/
def dipAlerts (maxDip : ℚ) : List Alert :=
  if maxDip > 7 then [Alert.exceptional]
  else if maxDip > 5 then [Alert.strong]
  else if maxDip > 3 then [Alert.moderate]
  else []

/-- Crossover alert (lines 391-399): requires all four MAs available
(`!isNaN` on each); golden cross when `c30 > c50 && p30 <= p50`, else death
cross when `c30 < c50 && p30 >= p50`. -/
def crossAlerts (c30 c50 p30 p50 : Option ℚ) : List Alert :=
  match c30, c50, p30, p50 with
  | some a, some b, some c, some d =>
    if a > b ∧ c ≤ d then [Alert.goldenCross]
    else if a < b ∧ c ≥ d then [Alert.deathCross]
    else []
  | _, _, _, _ => []

/-- Long-term trend alert (lines 402-405). -/
def longAlerts (latestNav : ℚ) (ma200 : Option ℚ) : List Alert :=
  match ma200 with
  | some m => if latestNav < m then [Alert.longTermDown] else []
  | none => []

/-- The per-fund signal outcome. -/
structure SignalResult where
  maxDip : ℚ
  alignment : ℚ
  trend : ℚ
  score : ℚ
  alerts : List Alert
deriving DecidableEq

/-- Signal and scoring engine, translated from the `if (!isNaN(latestNav))`
block of `getNAVAndAnalyze` (lines 337-405).  `latestNav` is the fund's
latest NAV (numeric, per the guard); the five `Option ℚ` arguments are the
current 30/50/200-day MAs and the prior row's 30/50-day MAs, with `none`
standing for an unavailable ("N/A" / NaN) value.  Alerts are pushed in
source order: dip tier, then crossover, then long-term trend. -/
def evaluateSignals (latestNav : ℚ) (ma30 ma50 ma200 p30 p50 : Option ℚ) :
    SignalResult :=
  let maxDip := maxDipPct latestNav ma30 ma50 ma200
  let align := maAlignmentScore latestNav ma30 ma50 ma200
  let trend := trendScore ma30 ma50
  { maxDip := maxDip
    alignment := align
    trend := trend
    score := opportunityScore maxDip trend align
    alerts := dipAlerts maxDip ++ crossAlerts ma30 ma50 p30 p50
      ++ longAlerts latestNav ma200 }

/-- **C2 counterexample.** The claim asserts the opportunity score lies in
[0, 100] for all valid inputs.  At the valid input `latestNav = 50`,
`MA30 = MA50 = 100` (latest value positive, available MAs positive) the dip
is 50%, and the computed score is 200, outside [0, 100]. -/
theorem c2_score_counterexample :
    (evaluateSignals 50 (some 100) (some 100) none none none).score = 200
    ∧ ¬ (evaluateSignals 50 (some 100) (some 100) none none none).score ≤ 100 := by
  have h1 : maxDipPct 50 (some 100) (some 100) none = 50 := by
    norm_num [maxDipPct, dipStep, round2, roundAway]
  have h2 : trendScore (some 100) (some 100) = 0 := by
    norm_num [trendScore]
  have h3 : maAlignmentScore 50 (some 100) (some 100) none = 0 := by
    norm_num [maAlignmentScore]
  have hs : (evaluateSignals 50 (some 100) (some 100) none none none).score
      = opportunityScore (maxDipPct 50 (some 100) (some 100) none)
          (trendScore (some 100) (some 100))
          (maAlignmentScore 50 (some 100) (some 100) none) := rfl
  rw [hs, h1, h2, h3]
  norm_num [opportunityScore]

/-- **C2 (amended).** The opportunity score
`((maxDipPct/10)*0.4 + trendStrength*0.3 + (alignmentScore/3)*0.3)*100` is
monotonically non-decreasing in `maxDipPct` with the other two factors held
fixed, and is bounded below by 0 for all valid inputs (dip non-negative,
trend strength in [0, 1], alignment score in [0, 3]); it is bounded above by
100 only under the additional premise `maxDipPct ≤ 10` — without that bound
the score exceeds 100 (see the counterexample). -/
theorem c2_score_monotone_bounds (d t a : ℚ) (hd : 0 ≤ d) (ht0 : 0 ≤ t)
    (ht1 : t ≤ 1) (ha0 : 0 ≤ a) (ha3 : a ≤ 3) :
    (∀ d2, d ≤ d2 → opportunityScore d t a ≤ opportunityScore d2 t a)
    ∧ 0 ≤ opportunityScore d t a
    ∧ (d ≤ 10 → opportunityScore d t a ≤ 100) := by
  refine ⟨?_, ?_, ?_⟩
  · intro d2 hdd
    unfold opportunityScore
    nlinarith
  · unfold opportunityScore
    nlinarith
  · intro hd10
    unfold opportunityScore
    nlinarith

/-- Witness for the amended C2 at `maxDip = 5`, `trend = 1/2`, `align = 2`. -/
theorem c2_witness :
    opportunityScore 5 (1 / 2) 2 ≤ opportunityScore 8 (1 / 2) 2
    ∧ 0 ≤ opportunityScore 5 (1 / 2) 2
    ∧ opportunityScore 5 (1 / 2) 2 ≤ 100 := by
  have h := c2_score_monotone_bounds 5 (1 / 2) 2 (by norm_num) (by norm_num)
    (by norm_num) (by norm_num) (by norm_num)
  exact ⟨h.1 8 (by norm_num), h.2.1, h.2.2 (by norm_num)⟩

theorem mem_dipAlerts_imp (t : Alert) (x : ℚ) (h : t ∈ dipAlerts x) :
    t = Alert.exceptional ∨ t = Alert.strong ∨ t = Alert.moderate := by
  unfold dipAlerts at h
  split_ifs at h <;> simp_all

theorem mem_crossAlerts_imp (t : Alert) (c30 c50 p30 p50 : Option ℚ)
    (h : t ∈ crossAlerts c30 c50 p30 p50) :
    t = Alert.goldenCross ∨ t = Alert.deathCross := by
  unfold crossAlerts at h
  rcases c30 with _ | a <;> rcases c50 with _ | b <;>
    rcases p30 with _ | c <;> rcases p50 with _ | d <;> simp_all
  split_ifs at h <;> simp_all

theorem mem_longAlerts_imp (t : Alert) (l : ℚ) (m : Option ℚ)
    (h : t ∈ longAlerts l m) : t = Alert.longTermDown := by
  unfold longAlerts at h
  rcases m with _ | v <;> simp_all

theorem mem_crossAlerts_golden (c30 c50 p30 p50 : Option ℚ) :
    Alert.goldenCross ∈ crossAlerts c30 c50 p30 p50 ↔
      ∃ a b c d, c30 = some a ∧ c50 = some b ∧ p30 = some c ∧ p50 = some d
        ∧ b < a ∧ c ≤ d := by
  unfold crossAlerts
  rcases c30 with _ | a <;> rcases c50 with _ | b <;>
    rcases p30 with _ | c <;> rcases p50 with _ | d <;> simp
  split_ifs with h1 h2 <;> simp_all

theorem mem_crossAlerts_death (c30 c50 p30 p50 : Option ℚ) :
    Alert.deathCross ∈ crossAlerts c30 c50 p30 p50 ↔
      ∃ a b c d, c30 = some a ∧ c50 = some b ∧ p30 = some c ∧ p50 = some d
        ∧ a < b ∧ d ≤ c := by
  unfold crossAlerts
  rcases c30 with _ | a <;> rcases c50 with _ | b <;>
    rcases p30 with _ | c <;> rcases p50 with _ | d <;> simp
  split_ifs with h1 h2 <;> simp_all
  exact fun hab => absurd hab (not_lt.mpr h1.1.le)

/-- **C5.** For every evaluation, a golden-cross alert fires iff
`currentMA30 > currentMA50` and `priorMA30 ≤ priorMA50`, and a death-cross
alert fires iff `currentMA30 < currentMA50` and `priorMA30 ≥ priorMA50`,
with all four MAs available; a tie at the prior boundary (`p30 = p50`)
satisfies both weak comparisons and counts as not yet crossed, and no
crossover alert fires when any of the four MAs is unavailable (the
existentials force all four to be `some`). -/
theorem c5_crossover (latestNav : ℚ) (c30 c50 ma200 p30 p50 : Option ℚ) :
    (Alert.goldenCross ∈ (evaluateSignals latestNav c30 c50 ma200 p30 p50).alerts ↔
      ∃ a b c d, c30 = some a ∧ c50 = some b ∧ p30 = some c ∧ p50 = some d
        ∧ b < a ∧ c ≤ d)
    ∧ (Alert.deathCross ∈ (evaluateSignals latestNav c30 c50 ma200 p30 p50).alerts ↔
      ∃ a b c d, c30 = some a ∧ c50 = some b ∧ p30 = some c ∧ p50 = some d
        ∧ a < b ∧ d ≤ c) := by
  have e : (evaluateSignals latestNav c30 c50 ma200 p30 p50).alerts
      = dipAlerts (maxDipPct latestNav c30 c50 ma200)
        ++ crossAlerts c30 c50 p30 p50 ++ longAlerts latestNav ma200 := rfl
  constructor
  · rw [e, ← mem_crossAlerts_golden]
    simp only [List.mem_append]
    constructor
    · rintro ((h | h) | h)
      · rcases mem_dipAlerts_imp _ _ h with h1 | h1 | h1 <;> simp_all
      · exact h
      · have := mem_longAlerts_imp _ _ _ h; simp_all
    · exact fun h => Or.inl (Or.inr h)
  · rw [e, ← mem_crossAlerts_death]
    simp only [List.mem_append]
    constructor
    · rintro ((h | h) | h)
      · rcases mem_dipAlerts_imp _ _ h with h1 | h1 | h1 <;> simp_all
      · exact h
      · have := mem_longAlerts_imp _ _ _ h; simp_all
    · exact fun h => Or.inl (Or.inr h)

/-- Witness for C5: with `MA30 = 2 > MA50 = 1` now and a tie `1 = 1` at the
prior boundary, the golden cross fires. -/
theorem c5_witness :
    Alert.goldenCross ∈
      (evaluateSignals 1 (some 2) (some 1) none (some 1) (some 1)).alerts :=
  (c5_crossover 1 (some 2) (some 1) none (some 1) (some 1)).1.mpr
    ⟨2, 1, 1, 1, rfl, rfl, rfl, rfl, by norm_num, le_refl 1⟩

theorem mem_dipAlerts_exceptional (x : ℚ) :
    Alert.exceptional ∈ dipAlerts x ↔ 7 < x := by
  unfold dipAlerts
  split_ifs with h1 h2 h3 <;> simp_all

theorem mem_dipAlerts_strong (x : ℚ) :
    Alert.strong ∈ dipAlerts x ↔ 5 < x ∧ x ≤ 7 := by
  unfold dipAlerts
  split_ifs with h1 h2 h3 <;> simp_all

theorem mem_dipAlerts_moderate (x : ℚ) :
    Alert.moderate ∈ dipAlerts x ↔ 3 < x ∧ x ≤ 5 := by
  unfold dipAlerts
  split_ifs with h1 h2 h3
  · simp only [List.mem_singleton]
    constructor
    · intro h; exact absurd h (by simp)
    · rintro ⟨_, h5⟩; linarith
  · simp only [List.mem_singleton]
    constructor
    · intro h; exact absurd h (by simp)
    · rintro ⟨_, h5⟩; linarith
  · simp only [List.mem_singleton, true_iff]
    constructor <;> linarith
  · simp only [List.not_mem_nil, false_iff]
    rintro ⟨h3lt, _⟩
    exact h3 h3lt

theorem mem_alerts_dip_iff (t : Alert) (latestNav : ℚ)
    (ma30 ma50 ma200 p30 p50 : Option ℚ)
    (ht : t = Alert.exceptional ∨ t = Alert.strong ∨ t = Alert.moderate) :
    (t ∈ (evaluateSignals latestNav ma30 ma50 ma200 p30 p50).alerts ↔
      t ∈ dipAlerts (maxDipPct latestNav ma30 ma50 ma200)) := by
  have e : (evaluateSignals latestNav ma30 ma50 ma200 p30 p50).alerts
      = dipAlerts (maxDipPct latestNav ma30 ma50 ma200)
        ++ crossAlerts ma30 ma50 p30 p50 ++ longAlerts latestNav ma200 := rfl
  rw [e]
  simp only [List.mem_append]
  constructor
  · rintro ((h | h) | h)
    · exact h
    · rcases mem_crossAlerts_imp _ _ _ _ _ h with h1 | h1 <;> simp_all
    · have := mem_longAlerts_imp _ _ _ h; simp_all
  · exact fun h => Or.inl (Or.inl h)

/-- **C6.** Dip-tier alerts are mutually exclusive and use strict `>` at
each threshold, evaluated strongest first: `maxDipPct > 7` yields
"exceptional", else `> 5` yields "strong", else `> 3` yields "moderate",
else no dip alert (the three characterizations have pairwise-disjoint
ranges, so at most one tier fires); in particular a dip of exactly 5%
(latestValue 95 against MA30 = 100) does not trigger "strong" and falls to
"moderate". -/
theorem c6_dip_tiers :
    (∀ (latestNav : ℚ) (ma30 ma50 ma200 p30 p50 : Option ℚ),
      (Alert.exceptional ∈ (evaluateSignals latestNav ma30 ma50 ma200 p30 p50).alerts
        ↔ 7 < (evaluateSignals latestNav ma30 ma50 ma200 p30 p50).maxDip)
      ∧ (Alert.strong ∈ (evaluateSignals latestNav ma30 ma50 ma200 p30 p50).alerts
        ↔ 5 < (evaluateSignals latestNav ma30 ma50 ma200 p30 p50).maxDip
          ∧ (evaluateSignals latestNav ma30 ma50 ma200 p30 p50).maxDip ≤ 7)
      ∧ (Alert.moderate ∈ (evaluateSignals latestNav ma30 ma50 ma200 p30 p50).alerts
        ↔ 3 < (evaluateSignals latestNav ma30 ma50 ma200 p30 p50).maxDip
          ∧ (evaluateSignals latestNav ma30 ma50 ma200 p30 p50).maxDip ≤ 5))
    ∧ ((evaluateSignals 95 (some 100) none none none none).maxDip = 5
      ∧ Alert.moderate ∈ (evaluateSignals 95 (some 100) none none none none).alerts
      ∧ Alert.strong ∉ (evaluateSignals 95 (some 100) none none none none).alerts) := by
  have hiff : ∀ (latestNav : ℚ) (ma30 ma50 ma200 p30 p50 : Option ℚ),
      (Alert.exceptional ∈ (evaluateSignals latestNav ma30 ma50 ma200 p30 p50).alerts
        ↔ 7 < (evaluateSignals latestNav ma30 ma50 ma200 p30 p50).maxDip)
      ∧ (Alert.strong ∈ (evaluateSignals latestNav ma30 ma50 ma200 p30 p50).alerts
        ↔ 5 < (evaluateSignals latestNav ma30 ma50 ma200 p30 p50).maxDip
          ∧ (evaluateSignals latestNav ma30 ma50 ma200 p30 p50).maxDip ≤ 7)
      ∧ (Alert.moderate ∈ (evaluateSignals latestNav ma30 ma50 ma200 p30 p50).alerts
        ↔ 3 < (evaluateSignals latestNav ma30 ma50 ma200 p30 p50).maxDip
          ∧ (evaluateSignals latestNav ma30 ma50 ma200 p30 p50).maxDip ≤ 5) := by
    intro latestNav ma30 ma50 ma200 p30 p50
    have hm : (evaluateSignals latestNav ma30 ma50 ma200 p30 p50).maxDip
        = maxDipPct latestNav ma30 ma50 ma200 := rfl
    rw [hm]
    exact ⟨(mem_alerts_dip_iff _ _ _ _ _ _ _ (Or.inl rfl)).trans
        (mem_dipAlerts_exceptional _),
      (mem_alerts_dip_iff _ _ _ _ _ _ _ (Or.inr (Or.inl rfl))).trans
        (mem_dipAlerts_strong _),
      (mem_alerts_dip_iff _ _ _ _ _ _ _ (Or.inr (Or.inr rfl))).trans
        (mem_dipAlerts_moderate _)⟩
  have hmax : (evaluateSignals 95 (some 100) none none none none).maxDip = 5 := by
    show maxDipPct 95 (some 100) none none = 5
    norm_num [maxDipPct, dipStep, round2, roundAway]
  refine ⟨hiff, hmax, ?_, ?_⟩
  · exact (hiff 95 (some 100) none none none none).2.2.mpr (by rw [hmax]; norm_num)
  · intro h
    have := (hiff 95 (some 100) none none none none).2.1.mp h
    rw [hmax] at this
    exact absurd this.1 (by norm_num)

/-- Witness for C6: the documented boundary case fires the moderate tier. -/
theorem c6_witness :
    Alert.moderate ∈ (evaluateSignals 95 (some 100) none none none none).alerts :=
  c6_dip_tiers.2.2.1

/-! ### Calendar (`holidays.gs`, `isWeekendOrHoliday` lines 584-589) -/

/-- `date.getDay()`: the day number modulo 7 (residue 0 Sunday, 6 Saturday
under the chosen epoch convention). -/
def getDay (d : ℤ) : ℤ := d % 7

/-- `isWeekendOrHoliday` from `holidays.gs`:
`day === 0 || day === 6 || holidays.includes(dateStr)`.  The holiday list of
`getMarketHolidays` is a parameter (a list of day numbers); the
`yyyy-MM-dd` formatting is the identity in this model. -/
def isWeekendOrHoliday (holidays : List ℤ) (d : ℤ) : Bool :=
  getDay d == 0 || getDay d == 6 || holidays.contains d

/-! ### Market data provider and first-pass trading-day walk
(`getNAVAndAnalyze` lines 112-206) -/

/-- A provider response: HTTP status code, raw body (used only for the
validity predicate), and the per-instrument report lines, each keyed by the
AMFI scheme code with its semicolon-separated fields pre-parsed by
`parseFloat` (`none` = NaN). -/
structure Resp where
  code : ℕ
  content : String
  lines : List (String × List (Option ℚ))
deriving DecidableEq

/-- `content.includes("No data found")` (line 130). -/
def noDataMarker (s : String) : Bool :=
  decide (("No data found".toList) <:+: s.toList)

/-- Line 130: `response.getResponseCode() === 200 && content &&
!content.includes("No data found")` (an empty string is falsy). -/
def validResp (r : Resp) : Bool :=
  r.code == 200 && !(r.content == "") && !(noDataMarker r.content)

/-- The walk of lines 117-141 over a list of lookback offsets: skip
weekends/holidays without fetching, accept the first syntactically valid
response and stop.  Also returns the list of dates actually queried, in
query order (the fetch log). -/
def firstPassAux (holidays : List ℤ) (fetch : ℤ → Resp) (today : ℤ) :
    List ℤ → Option (ℤ × Resp) × List ℤ
  | [] => (none, [])
  | i :: rest =>
    let d := today - i
    if isWeekendOrHoliday holidays d then firstPassAux holidays fetch today rest
    else if validResp (fetch d) then (some (d, fetch d), [d])
    else
      let x := firstPassAux holidays fetch today rest
      (x.1, d :: x.2)

/-- `for (let i = 1; i <= 5; i++)`: lookback offsets 1..5; offset 0
("today") is never a candidate. -/
def lookbackOffsets : List ℤ := [1, 2, 3, 4, 5]

/-- The accepted (date, response) of the first-pass walk, if any. -/
def firstPass (holidays : List ℤ) (fetch : ℤ → Resp) (today : ℤ) :
    Option (ℤ × Resp) :=
  (firstPassAux holidays fetch today lookbackOffsets).1

/-- The dates queried by the first-pass walk. -/
def firstPassLog (holidays : List ℤ) (fetch : ℤ → Resp) (today : ℤ) :
    List ℤ :=
  (firstPassAux holidays fetch today lookbackOffsets).2

/-! ### Row construction (lines 167-201) -/

/-- JavaScript `a || b` on `parseFloat` results: `NaN` and `0` are falsy. -/
def jsOrQ (a b : Option ℚ) : Option ℚ :=
  match a with
  | some v => if v = 0 then b else some v
  | none => b

/-- First-pass numeric extraction (line 178):
`parseFloat(parts[4]) || parseFloat(parts[5]) || parseFloat(parts.at(-1))`. -/
def extractFirstPass (parts : List (Option ℚ)) : Option ℚ :=
  jsOrQ ((parts.get? 4).join) (jsOrQ ((parts.get? 5).join) (parts.getLast?.join))

/-- Lines 170-181: for each tracked fund code, locate its report line and
extract a NAV; a missing line or NaN result yields the "N/A" marker
(`none`). -/
def buildRow (codes : List String) (lines : List (String × List (Option ℚ))) :
    List (Option ℚ) :=
  codes.map fun c =>
    (lines.find? (fun p => p.1 == c)).bind fun p => extractFirstPass p.2

/-- A persisted valuation row: resolved date and per-fund NAV cells
(`none` = the stored string "N/A"). -/
structure Row where
  date : ℤ
  navs : List (Option ℚ)
deriving DecidableEq

/-- Abnormal JavaScript terminations relevant to the retry path. -/
inductive JsErr
  | refError (x : String)
  | constAssign (x : String)
  | fuel
deriving DecidableEq

/-- Outcome of one daily cycle. -/
inductive Outcome
  | ok
  | noData
  | duplicate
  | scriptError (e : JsErr)
deriving DecidableEq

/-- The persistence core of one run of `getNAVAndAnalyze` (lines 112-281):
resolve the latest trading day with data (lines 117-147; on exhaustion the
run halts with the fatal no-data alert, persisting nothing); abort with no
mutation when the resolved date is already stored (lines 159-164); build
and append the new row (lines 167-192); and if any fund cell is "N/A"
(lines 195-204), delete the just-appended row (line 206) and terminate
abnormally: the retry loop header at line 209 reads the first-pass loop
variable `i` outside its block scope, raising a ReferenceError before any
retry date is evaluated — this is established against the block-scoping
model `navRetryProg` below, and is modelled here as `Outcome.scriptError`. -/
def getNAVAndAnalyzeCore (holidays : List ℤ) (fetch : ℤ → Resp) (today : ℤ)
    (codes : List String) (store : List Row) : Outcome × List Row :=
  match firstPass holidays fetch today with
  | none => (Outcome.noData, store)
  | some (d, r) =>
    if store.any (fun row => row.date == d) then (Outcome.duplicate, store)
    else
      let navs := buildRow codes r.lines
      let appended := store ++ [⟨d, navs⟩]
      if navs.contains none then
        (Outcome.scriptError (JsErr.refError "i"), appended.dropLast)
      else (Outcome.ok, appended)

theorem find_cons_eval {α : Type} (p : α → Bool) (a : α) (l : List α) :
    List.find? p (a :: l) = if p a then some a else List.find? p l := by
  cases h : p a <;> simp [List.find?, h]

theorem firstPassAux_eq_find (holidays : List ℤ) (fetch : ℤ → Resp)
    (today : ℤ) (offs : List ℤ) :
    (firstPassAux holidays fetch today offs).1
      = (offs.find? (fun i => !(isWeekendOrHoliday holidays (today - i))
            && validResp (fetch (today - i)))).map
          (fun i => (today - i, fetch (today - i))) := by
  induction offs with
  | nil => rfl
  | cons i rest ih =>
    rw [find_cons_eval]
    by_cases hw : isWeekendOrHoliday holidays (today - i) = true
    · simpa [firstPassAux, hw] using ih
    · have hw2 : isWeekendOrHoliday holidays (today - i) = false := by
        simpa using hw
      by_cases hv : validResp (fetch (today - i)) = true
      · simp [firstPassAux, hw2, hv]
      · have hv2 : validResp (fetch (today - i)) = false := by simpa using hv
        simpa [firstPassAux, hw2, hv2] using ih

theorem firstPassAux_log_mem (holidays : List ℤ) (fetch : ℤ → Resp)
    (today : ℤ) (offs : List ℤ) :
    ∀ d ∈ (firstPassAux holidays fetch today offs).2,
      (∃ i ∈ offs, d = today - i)
      ∧ isWeekendOrHoliday holidays d = false := by
  induction offs with
  | nil => intro d hd; simp [firstPassAux] at hd
  | cons i rest ih =>
    intro d hd
    by_cases hw : isWeekendOrHoliday holidays (today - i) = true
    · simp only [firstPassAux, hw, if_true] at hd
      obtain ⟨⟨j, hj, rfl⟩, hwd⟩ := ih d hd
      exact ⟨⟨j, List.mem_cons_of_mem _ hj, rfl⟩, hwd⟩
    · have hw2 : isWeekendOrHoliday holidays (today - i) = false := by
        simpa using hw
      by_cases hv : validResp (fetch (today - i)) = true
      · simp only [firstPassAux, hw2, if_false, Bool.false_eq_true, hv,
          if_true, List.mem_singleton] at hd
        subst hd
        exact ⟨⟨i, List.mem_cons_self _ _, rfl⟩, hw2⟩
      · have hv2 : validResp (fetch (today - i)) = false := by simpa using hv
        simp only [firstPassAux, hw2, hv2, Bool.false_eq_true, if_false,
          List.mem_cons] at hd
        rcases hd with rfl | hd
        · exact ⟨⟨i, List.mem_cons_self _ _, rfl⟩, hw2⟩
        · obtain ⟨⟨j, hj, rfl⟩, hwd⟩ := ih d hd
          exact ⟨⟨j, List.mem_cons_of_mem _ hj, rfl⟩, hwd⟩

theorem firstPassAux_accept (holidays : List ℤ) (fetch : ℤ → Resp)
    (today : ℤ) (offs : List ℤ) (d : ℤ) (r : Resp)
    (h : (firstPassAux holidays fetch today offs).1 = some (d, r)) :
    r = fetch d ∧ validResp (fetch d) = true
    ∧ ∀ e ∈ (firstPassAux holidays fetch today offs).2,
        e = d ∨ validResp (fetch e) = false := by
  induction offs with
  | nil => simp [firstPassAux] at h
  | cons i rest ih =>
    by_cases hw : isWeekendOrHoliday holidays (today - i) = true
    · simp only [firstPassAux, hw, if_true] at h ⊢
      exact ih h
    · have hw2 : isWeekendOrHoliday holidays (today - i) = false := by
        simpa using hw
      by_cases hv : validResp (fetch (today - i)) = true
      · simp only [firstPassAux, hw2, Bool.false_eq_true, if_false, hv,
          if_true] at h ⊢
        obtain ⟨rfl, rfl⟩ : today - i = d ∧ fetch (today - i) = r := by
          have := h
          simp at this
          exact ⟨this.1, this.2⟩
        refine ⟨rfl, hv, ?_⟩
        intro e he
        simp only [List.mem_singleton] at he
        exact Or.inl he
      · have hv2 : validResp (fetch (today - i)) = false := by simpa using hv
        simp only [firstPassAux, hw2, hv2, Bool.false_eq_true, if_false] at h ⊢
        obtain ⟨hr, hvr, hlog⟩ := ih h
        refine ⟨hr, hvr, ?_⟩
        intro e he
        simp only [List.mem_cons] at he
        rcases he with rfl | he
        · exact Or.inr hv2
        · exact hlog e he

/-- **C8.** The first-pass trading-day walk starts at lookback offset 1
(it never queries today), advances backward one day at a time up to 5 days,
skips every date the Calendar reports as a weekend or holiday, accepts the
first syntactically valid response (status 200, non-empty, no "No data
found" marker), and if every candidate in the budget fails, the run halts
with the fatal no-data outcome and persists nothing. -/
theorem c8_first_pass (holidays : List ℤ) (fetch : ℤ → Resp) (today : ℤ) :
    (firstPass holidays fetch today
      = (lookbackOffsets.find? (fun i => !(isWeekendOrHoliday holidays (today - i))
            && validResp (fetch (today - i)))).map
          (fun i => (today - i, fetch (today - i))))
    ∧ (∀ d ∈ firstPassLog holidays fetch today,
        today - 5 ≤ d ∧ d ≤ today - 1
        ∧ isWeekendOrHoliday holidays d = false)
    ∧ (∀ d r, firstPass holidays fetch today = some (d, r) →
        r = fetch d ∧ validResp (fetch d) = true
        ∧ ∀ e ∈ firstPassLog holidays fetch today,
            e = d ∨ validResp (fetch e) = false)
    ∧ (firstPass holidays fetch today = none →
        ∀ codes store, getNAVAndAnalyzeCore holidays fetch today codes store
          = (Outcome.noData, store)) := by
  refine ⟨firstPassAux_eq_find holidays fetch today lookbackOffsets, ?_, ?_, ?_⟩
  · intro d hd
    obtain ⟨⟨i, hi, rfl⟩, hwd⟩ :=
      firstPassAux_log_mem holidays fetch today lookbackOffsets d hd
    refine ⟨?_, ?_, hwd⟩ <;> fin_cases hi <;> omega
  · intro d r h
    exact firstPassAux_accept holidays fetch today lookbackOffsets d r h
  · intro hnone codes store
    unfold getNAVAndAnalyzeCore
    rw [hnone]

/-- Witness for C8: a provider that always fails (HTTP 500) exhausts the
budget and the cycle halts with `noData`, leaving the store untouched. -/
theorem c8_witness :
    getNAVAndAnalyzeCore [] (fun _ => ⟨500, "", []⟩) 3 ["A"] []
      = (Outcome.noData, []) :=
  (c8_first_pass [] (fun _ => ⟨500, "", []⟩) 3).2.2.2 rfl ["A"] []

/-- **C7.** For every run whose resolved date already exists in the stored
series, the cycle aborts as an idempotent no-op: the append is refused and
the store is left unmutated. -/
theorem c7_duplicate_noop (holidays : List ℤ) (fetch : ℤ → Resp) (today : ℤ)
    (codes : List String) (store : List Row) (d : ℤ) (r : Resp)
    (hfp : firstPass holidays fetch today = some (d, r))
    (hdup : store.any (fun row => row.date == d) = true) :
    getNAVAndAnalyzeCore holidays fetch today codes store
      = (Outcome.duplicate, store) := by
  unfold getNAVAndAnalyzeCore
  rw [hfp]
  simp [hdup]

/-- Witness for C7: the resolved date 2 is already stored; the cycle is a
no-op. -/
theorem c7_witness :
    getNAVAndAnalyzeCore [] (fun _ => ⟨200, "x", [("A", [none, none, none, none, some 10])]⟩)
        3 ["A"] [⟨2, [some 10]⟩]
      = (Outcome.duplicate, [⟨2, [some 10]⟩]) :=
  c7_duplicate_noop [] _ 3 ["A"] [⟨2, [some 10]⟩] 2
    ⟨200, "x", [("A", [none, none, none, none, some 10])]⟩ (by decide) (by decide)

/-- **C3.** The daily pipeline never leaves a partially-populated row
persisted: if the stored series contains no row with a missing ("N/A")
fund value and a daily cycle completes successfully, the resulting series
still contains no such row (the one appended row is fully populated;
an incomplete row is deleted again before the cycle aborts). -/
theorem c3_no_missing_rows (holidays : List ℤ) (fetch : ℤ → Resp)
    (today : ℤ) (codes : List String) (store : List Row)
    (hclean : ∀ row ∈ store, row.navs.contains none = false)
    (hok : (getNAVAndAnalyzeCore holidays fetch today codes store).1 = Outcome.ok) :
    ∀ row ∈ (getNAVAndAnalyzeCore holidays fetch today codes store).2,
      row.navs.contains none = false := by
  unfold getNAVAndAnalyzeCore at hok ⊢
  rcases hfp : firstPass holidays fetch today with _ | ⟨d, r⟩ <;>
      rw [hfp] at hok <;> dsimp only at hok ⊢
  · exact absurd hok (by simp)
  · by_cases hdup : (store.any fun row => row.date == d) = true
    · rw [if_pos hdup] at hok
      exact absurd hok (by simp)
    · rw [if_neg hdup] at hok ⊢
      by_cases hna : (buildRow codes r.lines).contains none = true
      · rw [if_pos hna] at hok
        exact absurd hok (by simp)
      · rw [if_neg hna] at hok ⊢
        intro row hrow
        rcases List.mem_append.mp hrow with hmem | hmem
        · exact hclean row hmem
        · simp only [List.mem_singleton] at hmem
          subst hmem
          simpa using hna

/-- Witness for C3: a successful cycle over an empty store appends one row,
and that row (date 2, NAV 10) has no missing value. -/
theorem c3_witness :
    (getNAVAndAnalyzeCore []
        (fun _ => ⟨200, "x", [("A", [none, none, none, none, some 10])]⟩)
        3 ["A"] []).1 = Outcome.ok
    ∧ (⟨2, [some 10]⟩ : Row).navs.contains none = false :=
  ⟨by decide,
    c3_no_missing_rows []
      (fun _ => ⟨200, "x", [("A", [none, none, none, none, some 10])]⟩)
      3 ["A"] [] (fun row hrow => absurd hrow (by simp)) (by decide)
      ⟨2, [some 10]⟩ (by decide)⟩

/-- **C4 (code evaluation at the failing input).** When the first accepted
date yields a row with a missing instrument (here fund "B" has no report
line), the claimed behavior — continue walking backward with a widened scan
and return the first complete row — does not occur: the cycle deletes the
just-appended row and terminates abnormally with the ReferenceError on the
out-of-scope loop variable `i`, appending nothing. -/
theorem c4_retry_crash :
    getNAVAndAnalyzeCore []
        (fun _ => ⟨200, "x", [("A", [none, none, none, none, some 10])]⟩)
        3 ["A", "B"] []
      = (Outcome.scriptError (JsErr.refError "i"), []) := by
  decide

/-! ### Gap Repair (`fillNAData`, lines 595-754)

The provider is abstracted as `fetch fund date`, returning the parsed
fields of the fund's report line for that date, or `none` when the
response is invalid (non-200, empty, "No data found") or the line is
absent — the cases in which the source makes no assignment to `foundNav`
for that date. -/

/-- The field scan of lines 686-693:
`for (let j = 2; j < Math.min(parts.length, 10); j++)`, taking the first
parsed value that is `> 0`. -/
def scanPositive (parts : List (Option ℚ)) : Option ℚ :=
  (((parts.take 10).drop 2).filterMap id).find? (fun v => decide (0 < v))

/-- Lines 686-700: the scan, then the last field as a last resort
(`parseFloat(parts[parts.length - 1])`). -/
def extractRepair (parts : List (Option ℚ)) : Option ℚ :=
  match scanPositive parts with
  | some c => some c
  | none => parts.getLast?.join

/-- JavaScript truthiness of a number: `NaN` and `0` are falsy
(the `if (foundNav)` tests on lines 703 and 710). -/
def jsTruthy (o : Option ℚ) : Bool :=
  match o with
  | some v => !(v == 0)
  | none => false

/-- `for (let dayOffset = 0; dayOffset <= 5; dayOffset++)` (line 665):
offsets relative to the row's own date. -/
def repairOffsets : List ℤ := [0, 1, 2, 3, 4, 5]

/-- The per-cell backward search of lines 663-708: walk the offsets,
skip weekends/holidays, and stop at the first date whose extracted value is
truthy. -/
def repairCellAux (fetch : ℕ → ℤ → Option (List (Option ℚ)))
    (holidays : List ℤ) (f : ℕ) (rowDate : ℤ) : List ℤ → Option ℚ
  | [] => none
  | off :: rest =>
    let d := rowDate - off
    if isWeekendOrHoliday holidays d then
      repairCellAux fetch holidays f rowDate rest
    else
      match fetch f d with
      | none => repairCellAux fetch holidays f rowDate rest
      | some parts =>
        let cand := extractRepair parts
        if jsTruthy cand then cand
        else repairCellAux fetch holidays f rowDate rest

/-- The value found for one missing cell, if any. -/
def repairCell (fetch : ℕ → ℤ → Option (List (Option ℚ)))
    (holidays : List ℤ) (f : ℕ) (rowDate : ℤ) : Option ℚ :=
  repairCellAux fetch holidays f rowDate repairOffsets

/-- Lines 653-721 and 726-728 for a single row and fund: a cell is
processed only when its stored value is exactly "N/A"; a successful search
overwrites that one cell in place and counts one update. -/
def repairCellInRow (fetch : ℕ → ℤ → Option (List (Option ℚ)))
    (holidays : List ℤ) (f : ℕ) (r : Row) : Row × ℕ :=
  match r.navs.get? f with
  | some none =>
    match repairCell fetch holidays f r.date with
    | some v => (⟨r.date, r.navs.set f (some v)⟩, 1)
    | none => (r, 0)
  | _ => (r, 0)

/-- One fund's pass over all rows (the `for (let i = 0; i < data.length...`
loop plus the batched `updates.forEach(setValue)`). -/
def fillNAFund (fetch : ℕ → ℤ → Option (List (Option ℚ)))
    (holidays : List ℤ) (f : ℕ) (rows : List Row) : List Row × ℕ :=
  (rows.map (fun r => (repairCellInRow fetch holidays f r).1),
   (rows.map (fun r => (repairCellInRow fetch holidays f r).2)).sum)

/-- The `Object.entries(fundColumns).forEach` loop over a list of fund
indices, accumulating `totalUpdates`. -/
def fillNAList (fetch : ℕ → ℤ → Option (List (Option ℚ)))
    (holidays : List ℤ) : List ℕ → List Row → List Row × ℕ
  | [], rows => (rows, 0)
  | f :: fs, rows =>
    let x := fillNAFund fetch holidays f rows
    let y := fillNAList fetch holidays fs x.1
    (y.1, x.2 + y.2)

/-- `fillNAData`: scan every fund's column over the whole stored series,
heal "N/A" cells in place, and report the total number of repaired cells. -/
def fillNAData (fetch : ℕ → ℤ → Option (List (Option ℚ)))
    (holidays : List ℤ) (nFunds : ℕ) (store : List Row) : List Row × ℕ :=
  fillNAList fetch holidays (List.range nFunds) store

theorem repairCellInRow_date (fetch : ℕ → ℤ → Option (List (Option ℚ)))
    (holidays : List ℤ) (f : ℕ) (r : Row) :
    ((repairCellInRow fetch holidays f r).1).date = r.date := by
  unfold repairCellInRow
  rcases hc : r.navs.get? f with _ | c
  · rfl
  · rcases c with _ | v
    · rcases hr : repairCell fetch holidays f r.date with _ | w <;> simp
    · rfl

theorem repairCellInRow_get_ne (fetch : ℕ → ℤ → Option (List (Option ℚ)))
    (holidays : List ℤ) (f g : ℕ) (r : Row) (hne : f ≠ g) :
    ((repairCellInRow fetch holidays f r).1).navs.get? g = r.navs.get? g := by
  unfold repairCellInRow
  rcases hc : r.navs.get? f with _ | c
  · rfl
  · rcases c with _ | v
    · rcases hr : repairCell fetch holidays f r.date with _ | w
      · rfl
      · simp [List.getElem?_set_ne hne]
    · rfl

theorem repairCellInRow_keeps_some (fetch : ℕ → ℤ → Option (List (Option ℚ)))
    (holidays : List ℤ) (f : ℕ) (r : Row) (v : ℚ)
    (hv : r.navs.get? f = some (some v)) :
    repairCellInRow fetch holidays f r = (r, 0) := by
  unfold repairCellInRow
  rw [hv]

/-- A row is stable for fund `f` when the repair pass leaves it unchanged
and counts nothing. -/
def stableCell (fetch : ℕ → ℤ → Option (List (Option ℚ)))
    (holidays : List ℤ) (f : ℕ) (r : Row) : Prop :=
  repairCellInRow fetch holidays f r = (r, 0)

theorem repairCellInRow_idem (fetch : ℕ → ℤ → Option (List (Option ℚ)))
    (holidays : List ℤ) (f : ℕ) (r : Row) :
    stableCell fetch holidays f ((repairCellInRow fetch holidays f r).1) := by
  unfold stableCell
  unfold repairCellInRow
  rcases hc : r.navs.get? f with _ | c
  · simp only [repairCellInRow, hc]
  · rcases c with _ | v
    · rcases hr : repairCell fetch holidays f r.date with _ | w
      · simp only [repairCellInRow, hc, hr]
      · have hget : ((⟨r.date, r.navs.set f (some w)⟩ : Row)).navs.get? f
            = some (some w) := by
          show (r.navs.set f (some w)).get? f = some (some w)
          simp only [List.get?_eq_getElem?] at hc ⊢
          rw [List.getElem?_set_self', hc]
          rfl
        simp only [repairCellInRow, hget]
    · simp only [repairCellInRow, hc]

theorem stable_of_same (fetch : ℕ → ℤ → Option (List (Option ℚ)))
    (holidays : List ℤ) (f : ℕ) (r r2 : Row)
    (hc : r2.navs.get? f = r.navs.get? f) (hd : r2.date = r.date)
    (hs : stableCell fetch holidays f r) :
    stableCell fetch holidays f r2 := by
  unfold stableCell at hs ⊢
  unfold repairCellInRow at hs ⊢
  rcases hcase : r.navs.get? f with _ | c
  · rw [hc, hcase]
  · rcases c with _ | v
    · rcases hr : repairCell fetch holidays f r.date with _ | w
      · rw [hc, hcase, hd, hr]
      · rw [hcase, hr] at hs
        simp at hs
    · rw [hc, hcase]

theorem stable_preserved (fetch : ℕ → ℤ → Option (List (Option ℚ)))
    (holidays : List ℤ) (f g : ℕ) (r : Row)
    (hs : stableCell fetch holidays f r) :
    stableCell fetch holidays f ((repairCellInRow fetch holidays g r).1) := by
  by_cases hfg : f = g
  · subst hfg
    rw [hs]
    exact hs
  · exact stable_of_same fetch holidays f r _
      (repairCellInRow_get_ne fetch holidays g f r (fun h => hfg h.symm))
      (repairCellInRow_date fetch holidays g r) hs

/-- The cumulative effect of the per-fund passes on a single row. -/
def rowAfter (fetch : ℕ → ℤ → Option (List (Option ℚ)))
    (holidays : List ℤ) (fs : List ℕ) (r : Row) : Row :=
  fs.foldl (fun r f => (repairCellInRow fetch holidays f r).1) r

theorem fillNAList_rows (fetch : ℕ → ℤ → Option (List (Option ℚ)))
    (holidays : List ℤ) (fs : List ℕ) (rows : List Row) :
    (fillNAList fetch holidays fs rows).1
      = rows.map (rowAfter fetch holidays fs) := by
  induction fs generalizing rows with
  | nil =>
    show rows = _
    have hid : rowAfter fetch holidays [] = id := rfl
    rw [hid, List.map_id]
  | cons f fs ih =>
    show (fillNAList fetch holidays fs
        (rows.map (fun r => (repairCellInRow fetch holidays f r).1))).1 = _
    rw [ih, List.map_map]
    rfl

theorem stable_rowAfter_of_stable (fetch : ℕ → ℤ → Option (List (Option ℚ)))
    (holidays : List ℤ) (f : ℕ) (fs : List ℕ) (r : Row)
    (hs : stableCell fetch holidays f r) :
    stableCell fetch holidays f (rowAfter fetch holidays fs r) := by
  induction fs generalizing r with
  | nil => exact hs
  | cons g gs ih =>
    exact ih ((repairCellInRow fetch holidays g r).1)
      (stable_preserved fetch holidays f g r hs)

theorem stable_rowAfter (fetch : ℕ → ℤ → Option (List (Option ℚ)))
    (holidays : List ℤ) (f : ℕ) (fs : List ℕ) (r : Row) (hf : f ∈ fs) :
    stableCell fetch holidays f (rowAfter fetch holidays fs r) := by
  induction fs generalizing r with
  | nil => simp at hf
  | cons g gs ih =>
    rcases List.mem_cons.mp hf with rfl | hmem
    · exact stable_rowAfter_of_stable fetch holidays f gs
        ((repairCellInRow fetch holidays f r).1)
        (repairCellInRow_idem fetch holidays f r)
    · exact ih ((repairCellInRow fetch holidays g r).1) hmem

theorem fillNAFund_stable (fetch : ℕ → ℤ → Option (List (Option ℚ)))
    (holidays : List ℤ) (f : ℕ) (rows : List Row)
    (hs : ∀ r ∈ rows, stableCell fetch holidays f r) :
    fillNAFund fetch holidays f rows = (rows, 0) := by
  induction rows with
  | nil => rfl
  | cons r rs ih =>
    have hr : repairCellInRow fetch holidays f r = (r, 0) :=
      hs r (List.mem_cons_self _ _)
    have hrs := ih (fun x hx => hs x (List.mem_cons_of_mem _ hx))
    have h1 := congrArg Prod.fst hrs
    have h2 := congrArg Prod.snd hrs
    simp only [fillNAFund] at h1 h2 ⊢
    simp only [List.map_cons, List.sum_cons, hr, h1, h2]

theorem fillNAList_stable (fetch : ℕ → ℤ → Option (List (Option ℚ)))
    (holidays : List ℤ) (fs : List ℕ) (rows : List Row)
    (hs : ∀ r ∈ rows, ∀ f ∈ fs, stableCell fetch holidays f r) :
    fillNAList fetch holidays fs rows = (rows, 0) := by
  induction fs with
  | nil => rfl
  | cons f fs ih =>
    show ((fillNAList fetch holidays fs
        (fillNAFund fetch holidays f rows).1).1,
      (fillNAFund fetch holidays f rows).2
        + (fillNAList fetch holidays fs (fillNAFund fetch holidays f rows).1).2)
      = (rows, 0)
    rw [fillNAFund_stable fetch holidays f rows
      (fun r hr => hs r hr f (List.mem_cons_self _ _))]
    rw [ih (fun r hr g hg => hs r hr g (List.mem_cons_of_mem _ hg))]
    rfl

theorem rowAfter_date (fetch : ℕ → ℤ → Option (List (Option ℚ)))
    (holidays : List ℤ) (fs : List ℕ) (r : Row) :
    (rowAfter fetch holidays fs r).date = r.date := by
  induction fs generalizing r with
  | nil => rfl
  | cons g gs ih =>
    show (rowAfter fetch holidays gs ((repairCellInRow fetch holidays g r).1)).date = _
    rw [ih, repairCellInRow_date]

theorem rowAfter_keeps_some (fetch : ℕ → ℤ → Option (List (Option ℚ)))
    (holidays : List ℤ) (fs : List ℕ) (r : Row) (f : ℕ) (v : ℚ)
    (hv : r.navs.get? f = some (some v)) :
    (rowAfter fetch holidays fs r).navs.get? f = some (some v) := by
  induction fs generalizing r with
  | nil => exact hv
  | cons g gs ih =>
    show (rowAfter fetch holidays gs
        ((repairCellInRow fetch holidays g r).1)).navs.get? f = _
    apply ih
    by_cases hfg : g = f
    · subst hfg
      rw [repairCellInRow_keeps_some fetch holidays g r v hv]
      exact hv
    · rw [repairCellInRow_get_ne fetch holidays g f r hfg]
      exact hv

/-- **C9.** Gap Repair only overwrites cells whose stored value is the
missing marker "N/A": it never creates or deletes rows (same length, same
dates, same positions) and never touches cells that already hold a numeric
value; consequently running it twice in a row over the same series with the
same provider responses is idempotent — the second run changes nothing and
reports zero repaired cells. -/
theorem c9_gap_repair (fetch : ℕ → ℤ → Option (List (Option ℚ)))
    (holidays : List ℤ) (nFunds : ℕ) (store : List Row) :
    ((fillNAData fetch holidays nFunds store).1.length = store.length)
    ∧ (∀ k r2, (fillNAData fetch holidays nFunds store).1.get? k = some r2 →
        ∃ r, store.get? k = some r ∧ r2.date = r.date
          ∧ ∀ f v, r.navs.get? f = some (some v) →
              r2.navs.get? f = some (some v))
    ∧ fillNAData fetch holidays nFunds (fillNAData fetch holidays nFunds store).1
        = ((fillNAData fetch holidays nFunds store).1, 0) := by
  have hrows : (fillNAData fetch holidays nFunds store).1
      = store.map (rowAfter fetch holidays (List.range nFunds)) :=
    fillNAList_rows fetch holidays (List.range nFunds) store
  refine ⟨?_, ?_, ?_⟩
  · rw [hrows, List.length_map]
  · intro k r2 h2
    rw [hrows, List.get?_map] at h2
    rcases hk : store.get? k with _ | r
    · rw [hk] at h2
      exact Option.noConfusion h2
    · rw [hk] at h2
      have h3 : rowAfter fetch holidays (List.range nFunds) r = r2 :=
        Option.some.inj h2
      refine ⟨r, rfl, ?_, ?_⟩
      · rw [← h3, rowAfter_date]
      · intro f v hv
        rw [← h3]
        exact rowAfter_keeps_some fetch holidays (List.range nFunds) r f v hv
  · show fillNAList fetch holidays (List.range nFunds)
        (fillNAData fetch holidays nFunds store).1 = _
    apply fillNAList_stable
    intro r hr f hf
    rw [hrows] at hr
    rcases List.mem_map.mp hr with ⟨r0, _, rfl⟩
    exact stable_rowAfter fetch holidays f (List.range nFunds) r0 hf

/-- Witness for C9 at a concrete store: one "N/A" cell is healed on the
first run; the second run repairs zero cells and leaves the series
unchanged. -/
theorem c9_witness :
    fillNAData (fun _ _ => some [none, none, some 5]) [] 1
        ((fillNAData (fun _ _ => some [none, none, some 5]) [] 1
          [⟨3, [none]⟩]).1)
      = ((fillNAData (fun _ _ => some [none, none, some 5]) [] 1
          [⟨3, [none]⟩]).1, 0) :=
  (c9_gap_repair (fun _ _ => some [none, none, some 5]) [] 1 [⟨3, [none]⟩]).2.2

/-! ### Block scoping of the retry path (`getNAVAndAnalyze` lines 112-281)

JavaScript `let`/`const` bindings are block-scoped.  The retry loop header
at line 209, `for (let retryI = i + 1; retryI <= 10; retryI++)`, refers to
`i`; but both `i` bindings of the function — the first-pass walk
`for (let i = 1; i <= 5; i++)` (line 117) and the N/A scan
`for (let i = 0; i < fundNames.length; i++)` (line 196) — are scoped to
their own `for` statements, which have exited by line 209.  To settle this,
the statement skeleton of the function is embedded deeply, with an
interpreter whose variable lookup walks a chain of block scopes and raises
a ReferenceError on an unbound name, and a TypeError-like failure on
assignment to a `const` binding. -/

/-- Expressions of the embedded fragment. -/
inductive JsExpr
  | lit (n : ℤ)
  | var (x : String)
  | add (a b : JsExpr)

/-- Statements of the embedded fragment.  Spreadsheet appends/deletes and
provider queries are effects on the interpreter state; `forUpTo x init b s`
is `for (let x = init; x <= b; x++) s`. -/
inductive JsStmt
  | skip
  | seq (a b : JsStmt)
  | letDecl (isConst : Bool) (x : String) (e : JsExpr)
  | assign (x : String) (e : JsExpr)
  | block (s : JsStmt)
  | ifCond (c : Bool) (t : JsStmt)
  | appendRow (tag : String)
  | deleteLastRow
  | fetchRetry (e : JsExpr)
  | forUpTo (x : String) (init : JsExpr) (bound : ℤ) (body : JsStmt)

/-- Interpreter state: the scope chain (innermost first; each binding is
name, value, is-const), the persisted rows (by tag), and the log of retry
fetches. -/
structure JsState where
  scopes : List (List (String × ℤ × Bool))
  store : List String
  fetches : List ℤ
deriving DecidableEq

/-- Scope-chain lookup, innermost scope first. -/
def lookupVar : List (List (String × ℤ × Bool)) → String → Option ℤ
  | [], _ => none
  | sc :: rest, x =>
    match sc.find? (fun p => p.1 == x) with
    | some p => some p.2.1
    | none => lookupVar rest x

/-- Expression evaluation; an unbound variable is a ReferenceError. -/
def evalExpr (scopes : List (List (String × ℤ × Bool))) :
    JsExpr → Except JsErr ℤ
  | .lit n => .ok n
  | .var x =>
    match lookupVar scopes x with
    | some v => .ok v
    | none => .error (.refError x)
  | .add a b => do
    let va ← evalExpr scopes a
    let vb ← evalExpr scopes b
    .ok (va + vb)

/-- Declare a `let`/`const` binding in the innermost scope. -/
def declareVar (st : JsState) (isConst : Bool) (x : String) (v : ℤ) : JsState :=
  match st.scopes with
  | [] => { st with scopes := [[(x, v, isConst)]] }
  | sc :: rest => { st with scopes := ((x, v, isConst) :: sc) :: rest }

/-- Assignment walks the scope chain; assigning a `const` binding fails. -/
def assignIn : List (List (String × ℤ × Bool)) → String → ℤ →
    Except JsErr (List (List (String × ℤ × Bool)))
  | [], x, _ => .error (.refError x)
  | sc :: rest, x, v =>
    match sc.find? (fun p => p.1 == x) with
    | some p =>
      if p.2.2 then .error (.constAssign x)
      else .ok ((sc.map fun q => if q.1 == x then (x, v, false) else q) :: rest)
    | none => do
      let r ← assignIn rest x v
      .ok (sc :: r)

/-- Enter a `{ ... }` block. -/
def pushScope (st : JsState) : JsState := { st with scopes := [] :: st.scopes }

/-- Leave a block. -/
def popScope (st : JsState) : JsState := { st with scopes := st.scopes.tail }

/-- Run the loop body `k` times; each iteration gets a fresh block scope
holding the loop variable, as `let` loop headers do. -/
def runIters (exec : JsState → Option JsErr × JsState) (x : String) :
    ℕ → ℤ → JsState → Option JsErr × JsState
  | 0, _, st => (none, st)
  | k + 1, v, st =>
    match exec { st with scopes := [(x, v, false)] :: st.scopes } with
    | (none, st1) => runIters exec x k (v + 1) (popScope st1)
    | r => r

/-- The interpreter: errors abort execution and surface the state at the
point of failure. -/
def execStmt : JsStmt → JsState → Option JsErr × JsState
  | .skip, st => (none, st)
  | .seq a b, st =>
    match execStmt a st with
    | (none, st1) => execStmt b st1
    | r => r
  | .letDecl c x e, st =>
    match evalExpr st.scopes e with
    | .ok v => (none, declareVar st c x v)
    | .error err => (some err, st)
  | .assign x e, st =>
    match evalExpr st.scopes e with
    | .ok v =>
      match assignIn st.scopes x v with
      | .ok scopes2 => (none, { st with scopes := scopes2 })
      | .error err => (some err, st)
    | .error err => (some err, st)
  | .block s, st =>
    match execStmt s (pushScope st) with
    | (none, st1) => (none, popScope st1)
    | r => r
  | .ifCond c t, st => if c then execStmt t st else (none, st)
  | .appendRow tag, st => (none, { st with store := st.store ++ [tag] })
  | .deleteLastRow, st => (none, { st with store := st.store.dropLast })
  | .fetchRetry e, st =>
    match evalExpr st.scopes e with
    | .ok v => (none, { st with fetches := st.fetches ++ [v] })
    | .error err => (some err, st)
  | .forUpTo x init bound body, st =>
    match evalExpr st.scopes init with
    | .ok v => runIters (execStmt body) x (bound + 1 - v).toNat v st
    | .error err => (some err, st)

/-- The scope-relevant statement skeleton of `getNAVAndAnalyze`
lines 112-281.  Loop bodies whose effects are irrelevant to scoping are
`skip`; the parameter `hasNA` is the computed `hasNAValues` flag for the
fetched row.  The retry loop body carries its provider query (line 218),
its append (line 266), and the reassignment of the `const` binding
`newNavRow` (line 267). -/
def navRetryProg (hasNA : Bool) : JsStmt :=
  .seq (.letDecl false "rawNavData" (.lit 0))
  (.seq (.letDecl false "fetchedDate" (.lit 0))
  (.seq (.forUpTo "i" (.lit 1) 5 .skip)
  (.seq (.letDecl true "newNavRow" (.lit 0))
  (.seq (.appendRow "newNavRow")
  (.seq (.letDecl false "hasNAValues" (.lit 0))
  (.seq (.forUpTo "i" (.lit 0) 4 .skip)
  (.ifCond hasNA
    (.block
      (.seq .deleteLastRow
      (.forUpTo "retryI" (.add (.var "i") (.lit 1)) 10
        (.seq (.fetchRetry (.var "retryI"))
        (.seq (.appendRow "retryNavRow")
        (.assign "newNavRow" (.lit 0))))))))))))))

/-- Run the skeleton from a function-scope chain and a given store. -/
def runNavRetry (hasNA : Bool) (store0 : List String) :
    Option JsErr × JsState :=
  execStmt (navRetryProg hasNA) ⟨[[]], store0, []⟩

/-- **C10.** On the incomplete-row path the daily pipeline deletes the
just-appended row and then terminates abnormally before evaluating any
retry date: the retry loop's starting bound reads the first-pass loop
variable `i` outside its block scope, a ReferenceError at that point, so
the store is back to its pre-append contents, the retry fetch log is empty,
and no replacement row is ever appended (on the complete-row path the run
ends normally with the new row persisted).  Moreover the retry body's
`newNavRow = retryNavRow` would, were it ever reached, fail by reassigning
a `const` binding. -/
theorem c10_retry_dead_code :
    ((runNavRetry true ["old"]).1 = some (JsErr.refError "i"))
    ∧ ((runNavRetry true ["old"]).2.store = ["old"])
    ∧ ((runNavRetry true ["old"]).2.fetches = [])
    ∧ ((runNavRetry false ["old"]).1 = none)
    ∧ ((runNavRetry false ["old"]).2.store = ["old", "newNavRow"])
    ∧ (execStmt (JsStmt.assign "newNavRow" (JsExpr.lit 0))
          ⟨[[("newNavRow", 0, true)]], [], []⟩
        = (some (JsErr.constAssign "newNavRow"),
           ⟨[[("newNavRow", 0, true)]], [], []⟩)) :=
  ⟨rfl, rfl, rfl, rfl, rfl, rfl⟩

end NavTracker
